import Mathlib

/-!
Verification development for the vision-board repository.

The definitions below are shallow embeddings of the TypeScript source:
* `src/vision-board/constants.ts` (poster constants, preset table, `seededRandom`),
* `src/vision-board/texture-utils.ts` (`createFadedTexture`'s per-pixel mask math),
* `src/vision-board/SlotComponents.tsx` (dream-slot layout, highlight rings),
* `src/App.tsx` (`migrateConfigWithDefaults`) and `src/types.ts` (`DEFAULT_SLOT_CONFIG`),
* `src/vision-board/utils/canvas-export.ts` (`hideHudElements`, `restoreHudElements`,
  `exportCanvasAsImage`).

JavaScript numbers are modelled as real numbers (`ℝ`) where the source computes
with `Math.sin`, and as rationals (`ℚ`) where every operation is rational, so
that the corresponding predicates stay decidable.
-/

namespace VisionBoard

/-! ### constants.ts -/

def POSTER_WIDTH : ℚ := 1800

def POSTER_HEIGHT : ℚ := 2400

def MIN_DIM : ℚ := min POSTER_WIDTH POSTER_HEIGHT

def DREAM_BASE_SIZE : ℚ := MIN_DIM * 0.38

def CORE_BASE_SIZE : ℚ := MIN_DIM * 0.48

structure DreamPosition where
  x : ℚ
  y : ℚ
  size : ℚ
deriving Repr, DecidableEq

def DREAM_POSITIONS : List DreamPosition :=
  [⟨-0.32, -0.38, 1.15⟩, ⟨0.0, -0.40, 1.1⟩, ⟨0.32, -0.38, 1.15⟩,
   ⟨-0.38, -0.18, 1.1⟩, ⟨0.38, -0.16, 1.05⟩, ⟨-0.40, 0.08, 1.15⟩,
   ⟨0.40, 0.06, 1.1⟩, ⟨-0.38, 0.30, 1.05⟩, ⟨0.38, 0.28, 1.1⟩,
   ⟨-0.32, 0.42, 1.15⟩, ⟨0.0, 0.44, 1.1⟩, ⟨0.32, 0.42, 1.15⟩,
   ⟨-0.22, -0.28, 0.95⟩, ⟨0.22, 0.28, 0.95⟩]

/-- `seededRandom` from constants.ts:
`const x = Math.sin(seed * 9999) * 10000; return x - Math.floor(x)`. -/
noncomputable def seededRandom (seed : ℝ) : ℝ :=
  let x : ℝ := Real.sin (seed * 9999) * 10000
  x - ⌊x⌋

/-- Modelled from the spec (§4.1): the reference algorithm
`frac(sin(seed * K) * M)` with K = 9999, M = 10000, where `frac` is the
fractional part `x - floor x`. -/
noncomputable def seededReference (seed : ℝ) : ℝ :=
  Int.fract (Real.sin (seed * 9999) * 10000)

/-! ### texture-utils.ts — per-pixel mask math of `createFadedTexture`

For a pixel at `(px, py)` the source computes `ratio = dist / (size / 2)`
(with `dist` the distance to the canvas center) and the circular factor
below; the edge factor is computed from the pixel's minimum distance to the
edges of the drawn image rectangle and the feather width `size * 0.08`.
The written alpha byte is `Math.floor(srcAlpha * (circular * edge))`. -/

/-- Circular fade factor as a function of `ratio = dist / maxRadius`
(texture-utils.ts lines 51–59). -/
def circularAlpha (ratio : ℚ) : ℚ :=
  if ratio < 0.4 then 1
  else if ratio > 1 then 0
  else
    let t := (ratio - 0.4) / 0.6
    1 - t * t * (3 - 2 * t)

/-- Edge feather factor as a function of the feather width and the pixel's
minimum distance to any edge of the drawn image rectangle
(texture-utils.ts lines 63–82). -/
def edgeAlpha (feather minEdgeDist : ℚ) : ℚ :=
  if 0 < feather then
    if minEdgeDist < 0 then 0
    else if minEdgeDist < feather then
      let t := minEdgeDist / feather
      t * t * (3 - 2 * t)
    else 1
  else 1

/-- Feather width: `const featherSize = size * 0.08` (texture-utils.ts line 41). -/
def featherOf (size : ℚ) : ℚ := size * 0.08

/-- Minimum distance of pixel `(px, py)` to the four edges of the drawn image
rectangle `[x, x+w] × [y, y+h]` where `x = (size-w)/2`, `y = (size-h)/2`
(texture-utils.ts lines 25–26, 37–40, 66–72). -/
def minEdgeDist (size w h px py : ℚ) : ℚ :=
  let x := (size - w) / 2
  let y := (size - h) / 2
  min (min (px - x) ((x + w) - px)) (min (py - y) ((y + h) - py))

/-- The alpha byte written to the pixel buffer:
`data[idx + 3] = Math.floor(data[idx + 3] * finalAlpha)` with
`finalAlpha = circularAlpha * edgeAlpha` (texture-utils.ts lines 85–86). -/
def pixelAlpha (srcAlpha : ℕ) (ratio feather dist : ℚ) : ℤ :=
  ⌊(srcAlpha : ℚ) * (circularAlpha ratio * edgeAlpha feather dist)⌋

/-! ### Claim C4 -/

/-- C4: `seededRandom seed` equals the spec's reference algorithm
`frac(sin(seed * 9999) * 10000)`, lies in the half-open interval `[0, 1)`,
and is deterministic (equal results on repeated calls with the same seed). -/
theorem seededRandom_spec (seed : ℝ) :
    seededRandom seed = seededReference seed ∧
    0 ≤ seededRandom seed ∧ seededRandom seed < 1 ∧
    seededRandom seed = seededRandom seed := by
  have h : seededRandom seed = Int.fract (Real.sin (seed * 9999) * 10000) := rfl
  exact ⟨rfl, h ▸ Int.fract_nonneg _, h ▸ Int.fract_lt_one _, rfl⟩

/-! ### Claim C5 -/

/-- C5: the circular mask factor follows the spec's piecewise law
(1 below ratio 0.4, 0 above ratio 1, inverted smoothstep in between), is 1 for
every ratio ≤ 0.4, is 0 for every ratio ≥ 1, and is monotonically
non-increasing as the ratio increases from 0.4 to 1. -/
theorem circularAlpha_spec (r a b : ℚ) :
    (r < 0.4 → circularAlpha r = 1) ∧
    (r > 1 → circularAlpha r = 0) ∧
    (0.4 ≤ r → r ≤ 1 →
      circularAlpha r =
        1 - ((r - 0.4) / 0.6) * ((r - 0.4) / 0.6) * (3 - 2 * ((r - 0.4) / 0.6))) ∧
    (r ≤ 0.4 → circularAlpha r = 1) ∧
    (1 ≤ r → circularAlpha r = 0) ∧
    (0.4 ≤ a → a ≤ b → b ≤ 1 → circularAlpha b ≤ circularAlpha a) := by
  refine ⟨?_, ?_, ?_, ?_, ?_, ?_⟩
  · intro h; simp [circularAlpha, h]
  · intro h
    have h04 : ¬ r < 0.4 := by linarith
    simp [circularAlpha, h04, h]
  · intro h1 h2
    have h04 : ¬ r < 0.4 := by linarith
    have hgt : ¬ r > 1 := by linarith
    simp [circularAlpha, h04, hgt]
  · intro h
    rcases lt_or_eq_of_le h with h' | h'
    · simp [circularAlpha, h']
    · subst h'
      norm_num [circularAlpha]
  · intro h
    rcases eq_or_lt_of_le h with h' | h'
    · rw [← h']
      norm_num [circularAlpha]
    · have h04 : ¬ r < 0.4 := by linarith
      simp [circularAlpha, h04, h']
  · intro ha hab hb1
    have ha04 : ¬ a < 0.4 := by linarith
    have hb04 : ¬ b < 0.4 := by linarith
    have ha1 : ¬ a > 1 := by linarith
    have hb1' : ¬ b > 1 := by linarith
    simp only [circularAlpha, ha04, hb04, ha1, hb1', if_false]
    set ta : ℚ := (a - 0.4) / 0.6 with hta
    set tb : ℚ := (b - 0.4) / 0.6 with htb
    have hta0 : 0 ≤ ta := by
      rw [hta]; exact div_nonneg (by linarith) (by norm_num)
    have htb1 : tb ≤ 1 := by
      rw [htb, div_le_one (by norm_num)]; linarith
    have htab : ta ≤ tb := by
      rw [hta, htb, div_le_div_iff₀ (by norm_num) (by norm_num)]
      nlinarith
    have hta1 : ta ≤ 1 := le_trans htab htb1
    have htb0 : 0 ≤ tb := le_trans hta0 htab
    nlinarith [mul_nonneg (mul_nonneg (sub_nonneg.mpr htab) hta0) (sub_nonneg.mpr hta1),
      mul_nonneg (mul_nonneg (sub_nonneg.mpr htab) htb0) (sub_nonneg.mpr htb1),
      mul_nonneg (mul_nonneg (sub_nonneg.mpr htab) hta0) (sub_nonneg.mpr htb1),
      mul_nonneg (mul_nonneg (sub_nonneg.mpr htab) htb0) (sub_nonneg.mpr hta1)]

/-- Witness for C5 at concrete ratios. -/
theorem circularAlpha_spec_witness :
    circularAlpha (1/5) = 1 ∧ circularAlpha 2 = 0 ∧
    circularAlpha (3/4) ≤ circularAlpha (1/2) := by
  refine ⟨(circularAlpha_spec (1/5) 0 0).1 (by norm_num),
    (circularAlpha_spec 2 0 0).2.1 (by norm_num),
    (circularAlpha_spec 0 (1/2) (3/4)).2.2.2.2.2 (by norm_num) (by norm_num) (by norm_num)⟩

/-! ### Claim C6 -/

/-- C6: with feather width `0.08 * size`, a pixel strictly outside the drawn
image rectangle (negative minimum edge distance) gets final alpha 0 regardless
of its circular factor; a pixel within the feather band gets edge factor
`t² (3 - 2t)` with `t = minEdgeDist / featherSize`; any other pixel gets edge
factor 1; and the written alpha is the source alpha multiplied by
(circular factor × edge factor), floored into the byte buffer. -/
theorem edgeAlpha_spec (size w h px py : ℚ) (srcAlpha : ℕ) (ratio : ℚ)
    (hsize : 0 < size) :
    (minEdgeDist size w h px py < 0 →
      pixelAlpha srcAlpha ratio (featherOf size) (minEdgeDist size w h px py) = 0) ∧
    (0 ≤ minEdgeDist size w h px py →
      minEdgeDist size w h px py < featherOf size →
      edgeAlpha (featherOf size) (minEdgeDist size w h px py) =
        (minEdgeDist size w h px py / featherOf size) *
          (minEdgeDist size w h px py / featherOf size) *
          (3 - 2 * (minEdgeDist size w h px py / featherOf size))) ∧
    (featherOf size ≤ minEdgeDist size w h px py →
      edgeAlpha (featherOf size) (minEdgeDist size w h px py) = 1) ∧
    (pixelAlpha srcAlpha ratio (featherOf size) (minEdgeDist size w h px py) =
      ⌊(srcAlpha : ℚ) *
        (circularAlpha ratio *
          edgeAlpha (featherOf size) (minEdgeDist size w h px py))⌋) := by
  have hf : 0 < featherOf size := by
    unfold featherOf; positivity
  set d := minEdgeDist size w h px py with hd
  refine ⟨?_, ?_, ?_, rfl⟩
  · intro hneg
    simp [pixelAlpha, edgeAlpha, hf, hneg]
  · intro h0 hlt
    have : ¬ d < 0 := by linarith
    simp [edgeAlpha, hf, this, hlt]
  · intro hge
    have h1 : ¬ d < 0 := by linarith
    have h2 : ¬ d < featherOf size := by linarith
    simp [edgeAlpha, hf, h1, h2]

/-- Witness for C6 at a concrete pixel (size 200, image rectangle 100×100,
pixel (10, 10) lies outside the drawn rectangle; pixel (60, 100) lies in the
feather band; pixel (100, 100) is interior). -/
theorem edgeAlpha_spec_witness :
    pixelAlpha 255 (1/2) (featherOf 200) (minEdgeDist 200 100 100 10 10) = 0 ∧
    edgeAlpha (featherOf 200) (minEdgeDist 200 100 100 60 100) =
      (minEdgeDist 200 100 100 60 100 / featherOf 200) *
        (minEdgeDist 200 100 100 60 100 / featherOf 200) *
        (3 - 2 * (minEdgeDist 200 100 100 60 100 / featherOf 200)) ∧
    edgeAlpha (featherOf 200) (minEdgeDist 200 100 100 100 100) = 1 := by
  refine ⟨(edgeAlpha_spec 200 100 100 10 10 255 (1/2) (by norm_num)).1
      (by norm_num [minEdgeDist]),
    (edgeAlpha_spec 200 100 100 60 100 255 (1/2) (by norm_num)).2.1
      (by norm_num [minEdgeDist]) (by norm_num [minEdgeDist, featherOf]),
    (edgeAlpha_spec 200 100 100 100 100 255 (1/2) (by norm_num)).2.2.1
      (by norm_num [minEdgeDist, featherOf])⟩

/-! ### Claim C10 -/

/-- C10: the written alpha byte equals
`⌊srcAlpha * (circularFactor * edgeFactor)⌋`, both mask factors lie in `[0, 1]`,
and hence the output is an integer in `[0, srcAlpha]` — at most 255 for a byte
source, and 0 when the source pixel is fully transparent. -/
theorem pixelAlpha_bounds (srcAlpha : ℕ) (ratio feather dist : ℚ) :
    (0 ≤ circularAlpha ratio ∧ circularAlpha ratio ≤ 1) ∧
    (0 ≤ edgeAlpha feather dist ∧ edgeAlpha feather dist ≤ 1) ∧
    pixelAlpha srcAlpha ratio feather dist =
      ⌊(srcAlpha : ℚ) * (circularAlpha ratio * edgeAlpha feather dist)⌋ ∧
    0 ≤ pixelAlpha srcAlpha ratio feather dist ∧
    pixelAlpha srcAlpha ratio feather dist ≤ (srcAlpha : ℤ) ∧
    (srcAlpha ≤ 255 → pixelAlpha srcAlpha ratio feather dist ≤ 255) ∧
    (srcAlpha = 0 → pixelAlpha srcAlpha ratio feather dist = 0) := by
  have hc : 0 ≤ circularAlpha ratio ∧ circularAlpha ratio ≤ 1 := by
    unfold circularAlpha
    split
    · norm_num
    · split
      · norm_num
      · rename_i h04 h1
        push_neg at h04 h1
        dsimp only
        set t : ℚ := (ratio - 0.4) / 0.6 with htdef
        have ht0 : 0 ≤ t := by
          rw [htdef]; exact div_nonneg (by linarith) (by norm_num)
        have ht1 : t ≤ 1 := by
          rw [htdef, div_le_one (by norm_num)]; linarith
        constructor
        · nlinarith [sq_nonneg (1 - t),
            mul_nonneg (mul_nonneg (sub_nonneg.mpr ht1) (sub_nonneg.mpr ht1)) ht0]
        · nlinarith [mul_nonneg (mul_nonneg ht0 ht0)
            (by linarith : (0:ℚ) ≤ 3 - 2 * t)]
  have he : 0 ≤ edgeAlpha feather dist ∧ edgeAlpha feather dist ≤ 1 := by
    unfold edgeAlpha
    split
    · split
      · norm_num
      · split
        · rename_i hf hd0 hdf
          push_neg at hd0
          dsimp only
          set t : ℚ := dist / feather with htdef
          have ht0 : 0 ≤ t := by
            rw [htdef]; exact div_nonneg hd0 (le_of_lt hf)
          have ht1 : t ≤ 1 := by
            rw [htdef, div_le_one hf]; linarith
          constructor
          · nlinarith [mul_nonneg (mul_nonneg ht0 ht0)
              (by linarith : (0:ℚ) ≤ 3 - 2 * t)]
          · nlinarith [sq_nonneg (1 - t),
              mul_nonneg (mul_nonneg (sub_nonneg.mpr ht1) (sub_nonneg.mpr ht1)) ht0]
        · norm_num
    · norm_num
  have hq0 : 0 ≤ circularAlpha ratio * edgeAlpha feather dist :=
    mul_nonneg hc.1 he.1
  have hq1 : circularAlpha ratio * edgeAlpha feather dist ≤ 1 :=
    mul_le_one₀ hc.2 he.1 he.2
  have hlow : 0 ≤ pixelAlpha srcAlpha ratio feather dist := by
    unfold pixelAlpha
    exact Int.floor_nonneg.mpr (mul_nonneg (by positivity) hq0)
  have hupper : pixelAlpha srcAlpha ratio feather dist ≤ (srcAlpha : ℤ) := by
    unfold pixelAlpha
    calc ⌊(srcAlpha : ℚ) * (circularAlpha ratio * edgeAlpha feather dist)⌋
        ≤ ⌊(srcAlpha : ℚ)⌋ := by
          apply Int.floor_le_floor
          nlinarith [hq0, hq1, Nat.cast_nonneg (α := ℚ) srcAlpha]
      _ = (srcAlpha : ℤ) := Int.floor_natCast srcAlpha
  refine ⟨hc, he, rfl, hlow, hupper, ?_, ?_⟩
  · intro h255
    exact le_trans hupper (by exact_mod_cast h255)
  · intro h0
    subst h0
    omega

/-- Witness for C10's conditional parts at a concrete pixel. -/
theorem pixelAlpha_bounds_witness :
    pixelAlpha 255 (1/2) 16 8 ≤ 255 ∧ pixelAlpha 0 (1/2) 16 8 = 0 := by
  exact ⟨(pixelAlpha_bounds 255 (1/2) 16 8).2.2.2.2.2.1 (by norm_num),
    (pixelAlpha_bounds 0 (1/2) 16 8).2.2.2.2.2.2 rfl⟩

/-! ### SlotComponents.tsx — dream-slot layout and highlight rings -/

/-- `posMultiplier = pos.size * (0.8 + seededRandom(index * 17) * 0.4)`
(SlotComponents.tsx line 224). -/
noncomputable def dreamPosMultiplier (i : ℕ) (pos : DreamPosition) : ℝ :=
  (pos.size : ℝ) * (0.8 + seededRandom ((i : ℝ) * 17) * 0.4)

/-- The layout computed by `DreamSlot` (SlotComponents.tsx lines 221–242):
returns `(posMultiplier, x, y, rotation)`, or `none` for an out-of-range
position index (the component renders nothing). `offsetX`, `offsetY`,
`rotationDeg` are the slot's configured values after the `|| 0` defaulting,
which over the reals is the identity. -/
noncomputable def dreamSlotLayout (i : ℕ) (offsetX offsetY rotationDeg : ℝ) :
    Option (ℝ × ℝ × ℝ × ℝ) :=
  match DREAM_POSITIONS[i]? with
  | none => none
  | some pos =>
    let posMultiplier := dreamPosMultiplier i pos
    let baseX := (pos.x : ℝ) * (POSTER_WIDTH : ℝ) +
      (seededRandom ((i : ℝ) * 7) - 0.5) * (POSTER_WIDTH : ℝ) * 0.04
    let baseY := (pos.y : ℝ) * (POSTER_HEIGHT : ℝ) +
      (seededRandom ((i : ℝ) * 13) - 0.5) * (POSTER_HEIGHT : ℝ) * 0.04
    let x := baseX + offsetX
    let y := baseY + offsetY
    let baseRotation := (seededRandom ((i : ℝ) * 23) - 0.5) * 0.9
    let rotation := baseRotation + rotationDeg * Real.pi / 180
    some (posMultiplier, x, y, rotation)

/-- One ring stroke drawn by `HighlightRing` (SlotComponents.tsx lines 22–36). -/
structure RingStroke where
  radius : ℝ
  width : ℝ
  color : ℕ
  alpha : ℝ

/-- The three circles drawn by `HighlightRing` for a given base radius:
outer glow ring, main ring, inner bright ring. -/
def highlightRingStrokes (radius : ℝ) : List RingStroke :=
  [⟨radius + 20, 4, 0x3b82f6, 0.25⟩,
   ⟨radius + 12, 5, 0x3b82f6, 0.5⟩,
   ⟨radius + 8, 2, 0x60a5fa, 0.8⟩]

/-- `HighlightRing` renders a `pixiGraphics` at `zIndex={1000}` when visible
and nothing otherwise (SlotComponents.tsx lines 38–40). -/
def highlightRing (radius : ℝ) (visible : Bool) : Option (ℤ × List RingStroke) :=
  if visible then some (1000, highlightRingStrokes radius) else none

/-- JavaScript `s || 1`: 0 is falsy and is replaced by 1. -/
noncomputable def sizeOr1 (s : ℝ) : ℝ := if s = 0 then 1 else s

/-- Ring radius passed by `CoreSlot`:
`CORE_BASE_SIZE * 0.6 * (config.size || 1)` (SlotComponents.tsx line 202). -/
noncomputable def coreRingRadius (s : ℝ) : ℝ :=
  (CORE_BASE_SIZE : ℝ) * 0.6 * sizeOr1 s

/-- Ring radius passed by `DreamSlot`:
`(baseSlotSize / 2) * (config.size || 1)` with
`baseSlotSize = DREAM_BASE_SIZE * posMultiplier` (SlotComponents.tsx
lines 225, 267). -/
noncomputable def dreamRingRadius (i : ℕ) (pos : DreamPosition) (s : ℝ) : ℝ :=
  ((DREAM_BASE_SIZE : ℝ) * dreamPosMultiplier i pos) / 2 * sizeOr1 s

/-! ### Claim C7 -/

/-- C7: for an in-range position index, the dream slot's size multiplier, base
position (plus configured offsets) and rotation follow the seeded-jitter
formulas of the spec, and the computation is deterministic. -/
theorem dreamSlotLayout_spec (i : ℕ) (offsetX offsetY rotationDeg : ℝ)
    (hi : i < 14) :
    ∃ pos, DREAM_POSITIONS[i]? = some pos ∧
      dreamSlotLayout i offsetX offsetY rotationDeg = some
        ((pos.size : ℝ) * (0.8 + seededRandom ((i : ℝ) * 17) * 0.4),
         (pos.x : ℝ) * (POSTER_WIDTH : ℝ) +
           (seededRandom ((i : ℝ) * 7) - 0.5) * (POSTER_WIDTH : ℝ) * 0.04 + offsetX,
         (pos.y : ℝ) * (POSTER_HEIGHT : ℝ) +
           (seededRandom ((i : ℝ) * 13) - 0.5) * (POSTER_HEIGHT : ℝ) * 0.04 + offsetY,
         (seededRandom ((i : ℝ) * 23) - 0.5) * 0.9 + rotationDeg * Real.pi / 180) ∧
      dreamSlotLayout i offsetX offsetY rotationDeg =
        dreamSlotLayout i offsetX offsetY rotationDeg := by
  have hlen : i < DREAM_POSITIONS.length := by
    simpa [DREAM_POSITIONS] using hi
  refine ⟨DREAM_POSITIONS[i], List.getElem?_eq_getElem hlen, ?_, rfl⟩
  simp [dreamSlotLayout, dreamPosMultiplier, List.getElem?_eq_getElem hlen]

/-- Witness for C7 at position index 0 with zero offsets and rotation. -/
theorem dreamSlotLayout_spec_witness :
    ∃ pos, DREAM_POSITIONS[0]? = some pos ∧
      dreamSlotLayout 0 0 0 0 = some
        ((pos.size : ℝ) * (0.8 + seededRandom ((0 : ℕ) * 17) * 0.4),
         (pos.x : ℝ) * (POSTER_WIDTH : ℝ) +
           (seededRandom ((0 : ℕ) * 7) - 0.5) * (POSTER_WIDTH : ℝ) * 0.04 + 0,
         (pos.y : ℝ) * (POSTER_HEIGHT : ℝ) +
           (seededRandom ((0 : ℕ) * 13) - 0.5) * (POSTER_HEIGHT : ℝ) * 0.04 + 0,
         (seededRandom ((0 : ℕ) * 23) - 0.5) * 0.9 + 0 * Real.pi / 180) ∧
      dreamSlotLayout 0 0 0 0 = dreamSlotLayout 0 0 0 0 :=
  dreamSlotLayout_spec 0 0 0 0 (by norm_num)

/-! ### Claim C9 -/

/-- C9 counterexample: the claim says the core slot's ring base radius is
`CORE_BASE_SIZE / 2` times the size multiplier, but `CoreSlot` passes
`CORE_BASE_SIZE * 0.6 * size`: at size 1 the code's base radius is 518.4,
not 432. -/
theorem coreRingRadius_ne_half : coreRingRadius 1 ≠ (CORE_BASE_SIZE : ℝ) / 2 * 1 := by
  have h : (CORE_BASE_SIZE : ℚ) = 864 := by
    norm_num [CORE_BASE_SIZE, MIN_DIM, POSTER_WIDTH, POSTER_HEIGHT]
  norm_num [coreRingRadius, sizeOr1, h]

/-- C9 (amended): the selection overlay is exactly three concentric ring
strokes at zIndex 1000 with radii `baseRadius × size + {20, 12, 8}` and
opacities decreasing outward (0.8 inner, 0.5 main, 0.25 outer), where the
base radius times size is `CORE_BASE_SIZE * 0.6 * size` for the core slot
(not `CORE_BASE_SIZE / 2 * size` as originally claimed) and
`(DREAM_BASE_SIZE * posMultiplier / 2) * size` for a dream slot. -/
theorem highlightRing_spec (s : ℝ) (i : ℕ) (pos : DreamPosition)
    (hpos : DREAM_POSITIONS[i]? = some pos) :
    (∀ r : ℝ, highlightRing r true = some (1000, highlightRingStrokes r) ∧
      (highlightRingStrokes r).map RingStroke.radius = [r + 20, r + 12, r + 8] ∧
      (highlightRingStrokes r).map RingStroke.alpha = [0.25, 0.5, 0.8] ∧
      (highlightRingStrokes r).Pairwise
        (fun outer inner => inner.radius < outer.radius ∧ outer.alpha < inner.alpha)) ∧
    coreRingRadius s = (CORE_BASE_SIZE : ℝ) * 0.6 * sizeOr1 s ∧
    (DREAM_POSITIONS[i]? = some pos ∧
      dreamRingRadius i pos s =
        ((DREAM_BASE_SIZE : ℝ) * dreamPosMultiplier i pos) / 2 * sizeOr1 s) ∧
    highlightRing 0 false = none := by
  refine ⟨?_, rfl, ⟨hpos, rfl⟩, rfl⟩
  intro r
  refine ⟨rfl, rfl, rfl, ?_⟩
  simp only [highlightRingStrokes, List.pairwise_cons, List.mem_cons,
    List.mem_singleton, List.not_mem_nil, List.Pairwise.nil]
  norm_num

/-- Witness for C9's amended statement at concrete inputs. -/
theorem highlightRing_spec_witness :
    coreRingRadius 1 = (CORE_BASE_SIZE : ℝ) * 0.6 * sizeOr1 1 ∧
    highlightRing 0 false = none := by
  have h := highlightRing_spec 1 0 ⟨-0.32, -0.38, 1.15⟩ (by norm_num [DREAM_POSITIONS])
  exact ⟨h.2.1, h.2.2.2⟩

/-! ### types.ts and App.tsx — slot configuration and migration -/

/-- `SlotConfig` from types.ts. `image` is `string | null`; numeric fields are
JS numbers, modelled as rationals; `positionIndex` is an integer index (with
-1 used as the core sentinel). -/
structure SlotConfig where
  image : Option String
  size : ℚ
  zoom : ℚ
  opacity : ℚ
  blur : ℚ
  glowIntensity : ℚ
  offsetX : ℚ
  offsetY : ℚ
  rotation : ℚ
  saturation : ℚ
  brightness : ℚ
  contrast : ℚ
  positionIndex : ℤ
deriving Repr, DecidableEq

/-- `DEFAULT_SLOT_CONFIG` from types.ts. -/
def DEFAULT_SLOT_CONFIG : SlotConfig :=
  { image := none, size := 1.0, zoom := 1.0, opacity := 1.0, blur := 0,
    glowIntensity := 0.25, offsetX := 0, offsetY := 0, rotation := 0,
    saturation := 1.0, brightness := 1.0, contrast := 1.0, positionIndex := 0 }

/-- `Config` from types.ts. -/
structure Config where
  core : SlotConfig
  dreams : List SlotConfig
deriving Repr, DecidableEq

/-- A persisted slot as `migrateConfigWithDefaults` receives it: every field
may be absent (`none`). A stored `image: null` is `some none`. -/
structure StoredSlot where
  image : Option (Option String)
  size : Option ℚ
  zoom : Option ℚ
  opacity : Option ℚ
  blur : Option ℚ
  glowIntensity : Option ℚ
  offsetX : Option ℚ
  offsetY : Option ℚ
  rotation : Option ℚ
  saturation : Option ℚ
  brightness : Option ℚ
  contrast : Option ℚ
  positionIndex : Option ℤ
deriving Repr, DecidableEq

/-- The empty object `{}` used by `slot || {}` / `data.core || {}`. -/
def emptyStoredSlot : StoredSlot :=
  { image := none, size := none, zoom := none, opacity := none, blur := none,
    glowIntensity := none, offsetX := none, offsetY := none, rotation := none,
    saturation := none, brightness := none, contrast := none,
    positionIndex := none }

/-- A persisted configuration document: `core` and `dreams` themselves may be
absent, and each dream entry may be null. -/
structure StoredConfig where
  core : Option StoredSlot
  dreams : Option (List (Option StoredSlot))
deriving Repr, DecidableEq

/-- `migrateSlot` from App.tsx lines 144–151:
`({ ...DEFAULT_SLOT_CONFIG, ...slot, positionIndex: slot.positionIndex ?? defaultPosition })` —
fields present in the stored slot win; missing fields come from
`DEFAULT_SLOT_CONFIG`; `positionIndex` falls back to `defaultPosition`. -/
def migrateSlot (slot : StoredSlot) (defaultPosition : ℤ) : SlotConfig :=
  { image := slot.image.getD DEFAULT_SLOT_CONFIG.image,
    size := slot.size.getD DEFAULT_SLOT_CONFIG.size,
    zoom := slot.zoom.getD DEFAULT_SLOT_CONFIG.zoom,
    opacity := slot.opacity.getD DEFAULT_SLOT_CONFIG.opacity,
    blur := slot.blur.getD DEFAULT_SLOT_CONFIG.blur,
    glowIntensity := slot.glowIntensity.getD DEFAULT_SLOT_CONFIG.glowIntensity,
    offsetX := slot.offsetX.getD DEFAULT_SLOT_CONFIG.offsetX,
    offsetY := slot.offsetY.getD DEFAULT_SLOT_CONFIG.offsetY,
    rotation := slot.rotation.getD DEFAULT_SLOT_CONFIG.rotation,
    saturation := slot.saturation.getD DEFAULT_SLOT_CONFIG.saturation,
    brightness := slot.brightness.getD DEFAULT_SLOT_CONFIG.brightness,
    contrast := slot.contrast.getD DEFAULT_SLOT_CONFIG.contrast,
    positionIndex := slot.positionIndex.getD defaultPosition }

/-- `migrateConfigWithDefaults` from App.tsx lines 143–159:
`core: migrateSlot(data.core || {}, -1)` and
`dreams: (data.dreams || []).map((d, i) => migrateSlot(d || {}, d?.positionIndex ?? i))`. -/
def migrateConfigWithDefaults (data : StoredConfig) : Config :=
  { core := migrateSlot (data.core.getD emptyStoredSlot) (-1),
    dreams := ((data.dreams.getD []).enum).map fun p =>
      migrateSlot (p.2.getD emptyStoredSlot)
        ((p.2.getD emptyStoredSlot).positionIndex.getD (p.1 : ℤ)) }

/-- Fully-populated persisted form of a slot (every field serialized). -/
def storedOfSlot (c : SlotConfig) : StoredSlot :=
  { image := some c.image, size := some c.size, zoom := some c.zoom,
    opacity := some c.opacity, blur := some c.blur,
    glowIntensity := some c.glowIntensity, offsetX := some c.offsetX,
    offsetY := some c.offsetY, rotation := some c.rotation,
    saturation := some c.saturation, brightness := some c.brightness,
    contrast := some c.contrast, positionIndex := some c.positionIndex }

/-- Fully-populated persisted form of a configuration document. -/
def storedOfConfig (c : Config) : StoredConfig :=
  { core := some (storedOfSlot c.core),
    dreams := some (c.dreams.map fun d => some (storedOfSlot d)) }

theorem migrateSlot_storedOfSlot (c : SlotConfig) (dp : ℤ) :
    migrateSlot (storedOfSlot c) dp = c := rfl

theorem enumFrom_map_migrate (l : List SlotConfig) (n : ℕ) :
    (((l.map fun d => some (storedOfSlot d)).enumFrom n).map fun p =>
      migrateSlot (p.2.getD emptyStoredSlot)
        ((p.2.getD emptyStoredSlot).positionIndex.getD (p.1 : ℤ))) = l := by
  induction l generalizing n with
  | nil => rfl
  | cons d l ih =>
    have h1 : migrateSlot (storedOfSlot d)
        ((storedOfSlot d).positionIndex.getD (n : ℤ)) = d := rfl
    simpa [List.enumFrom, h1] using ih (n + 1)

theorem pairwise_migrate_aux (ds : List (Option StoredSlot)) (n : ℕ)
    (hall : ∀ d ∈ ds, ((d.getD emptyStoredSlot).positionIndex).isSome = true)
    (hpw : ds.Pairwise fun a b =>
      (a.getD emptyStoredSlot).positionIndex ≠
        (b.getD emptyStoredSlot).positionIndex) :
    ((ds.enumFrom n).map fun p =>
      migrateSlot (p.2.getD emptyStoredSlot)
        ((p.2.getD emptyStoredSlot).positionIndex.getD (p.1 : ℤ))).Pairwise
      (fun a b => a.positionIndex ≠ b.positionIndex) := by
  induction ds generalizing n with
  | nil => exact List.Pairwise.nil
  | cons d ds ih =>
    obtain ⟨hd, hpw'⟩ := List.pairwise_cons.mp hpw
    obtain ⟨v, hv⟩ := Option.isSome_iff_exists.mp (hall d (List.mem_cons_self _ _))
    simp only [List.enumFrom, List.map_cons]
    apply List.pairwise_cons.mpr
    refine ⟨?_, ih (n + 1) (fun e he => hall e (List.mem_cons_of_mem _ he)) hpw'⟩
    intro b hb
    obtain ⟨p, hp, rfl⟩ := List.mem_map.mp hb
    have hsnd : p.2 ∈ ds := by
      have hm : p.2 ∈ (ds.enumFrom (n + 1)).map Prod.snd :=
        List.mem_map_of_mem _ hp
      rwa [List.enumFrom_map_snd] at hm
    obtain ⟨w, hw⟩ := Option.isSome_iff_exists.mp (hall p.2 (List.mem_cons_of_mem _ hsnd))
    simp only [migrateSlot, hv, hw, Option.getD_some]
    intro hvw
    exact hd p.2 hsnd (by rw [hv, hw, hvw])

/-! ### Claim C8 -/

/-- C8: `migrateConfigWithDefaults` keeps every field stored in a persisted
slot, backfills genuinely missing fields from `DEFAULT_SLOT_CONFIG`, defaults
a missing core `positionIndex` to the sentinel -1, preserves pairwise-distinct
dream `positionIndex` values, and is the identity on a fully-populated
document. -/
theorem migrateConfig_spec (s : StoredSlot) (dp : ℤ) (data : StoredConfig)
    (ds : List (Option StoredSlot)) (c : Config) :
    ((∀ v, s.image = some v → (migrateSlot s dp).image = v) ∧
      (s.image = none → (migrateSlot s dp).image = DEFAULT_SLOT_CONFIG.image)) ∧
    ((∀ v, s.size = some v → (migrateSlot s dp).size = v) ∧
      (s.size = none → (migrateSlot s dp).size = DEFAULT_SLOT_CONFIG.size)) ∧
    ((∀ v, s.zoom = some v → (migrateSlot s dp).zoom = v) ∧
      (s.zoom = none → (migrateSlot s dp).zoom = DEFAULT_SLOT_CONFIG.zoom)) ∧
    ((∀ v, s.opacity = some v → (migrateSlot s dp).opacity = v) ∧
      (s.opacity = none → (migrateSlot s dp).opacity = DEFAULT_SLOT_CONFIG.opacity)) ∧
    ((∀ v, s.blur = some v → (migrateSlot s dp).blur = v) ∧
      (s.blur = none → (migrateSlot s dp).blur = DEFAULT_SLOT_CONFIG.blur)) ∧
    ((∀ v, s.glowIntensity = some v → (migrateSlot s dp).glowIntensity = v) ∧
      (s.glowIntensity = none →
        (migrateSlot s dp).glowIntensity = DEFAULT_SLOT_CONFIG.glowIntensity)) ∧
    ((∀ v, s.offsetX = some v → (migrateSlot s dp).offsetX = v) ∧
      (s.offsetX = none → (migrateSlot s dp).offsetX = DEFAULT_SLOT_CONFIG.offsetX)) ∧
    ((∀ v, s.offsetY = some v → (migrateSlot s dp).offsetY = v) ∧
      (s.offsetY = none → (migrateSlot s dp).offsetY = DEFAULT_SLOT_CONFIG.offsetY)) ∧
    ((∀ v, s.rotation = some v → (migrateSlot s dp).rotation = v) ∧
      (s.rotation = none → (migrateSlot s dp).rotation = DEFAULT_SLOT_CONFIG.rotation)) ∧
    ((∀ v, s.saturation = some v → (migrateSlot s dp).saturation = v) ∧
      (s.saturation = none →
        (migrateSlot s dp).saturation = DEFAULT_SLOT_CONFIG.saturation)) ∧
    ((∀ v, s.brightness = some v → (migrateSlot s dp).brightness = v) ∧
      (s.brightness = none →
        (migrateSlot s dp).brightness = DEFAULT_SLOT_CONFIG.brightness)) ∧
    ((∀ v, s.contrast = some v → (migrateSlot s dp).contrast = v) ∧
      (s.contrast = none → (migrateSlot s dp).contrast = DEFAULT_SLOT_CONFIG.contrast)) ∧
    ((∀ v, s.positionIndex = some v → (migrateSlot s dp).positionIndex = v) ∧
      (s.positionIndex = none → (migrateSlot s dp).positionIndex = dp)) ∧
    ((data.core.getD emptyStoredSlot).positionIndex = none →
      (migrateConfigWithDefaults data).core.positionIndex = -1) ∧
    ((∀ d ∈ ds, ((d.getD emptyStoredSlot).positionIndex).isSome = true) →
      (ds.Pairwise fun a b =>
        (a.getD emptyStoredSlot).positionIndex ≠
          (b.getD emptyStoredSlot).positionIndex) →
      ((migrateConfigWithDefaults ⟨data.core, some ds⟩).dreams).Pairwise
        (fun a b => a.positionIndex ≠ b.positionIndex)) ∧
    migrateConfigWithDefaults (storedOfConfig c) = c := by
  refine ⟨?_, ?_, ?_, ?_, ?_, ?_, ?_, ?_, ?_, ?_, ?_, ?_, ?_, ?_, ?_, ?_⟩
  case _ => exact ⟨fun v hv => by simp [migrateSlot, hv],
    fun hv => by simp [migrateSlot, hv]⟩
  case _ => exact ⟨fun v hv => by simp [migrateSlot, hv],
    fun hv => by simp [migrateSlot, hv]⟩
  case _ => exact ⟨fun v hv => by simp [migrateSlot, hv],
    fun hv => by simp [migrateSlot, hv]⟩
  case _ => exact ⟨fun v hv => by simp [migrateSlot, hv],
    fun hv => by simp [migrateSlot, hv]⟩
  case _ => exact ⟨fun v hv => by simp [migrateSlot, hv],
    fun hv => by simp [migrateSlot, hv]⟩
  case _ => exact ⟨fun v hv => by simp [migrateSlot, hv],
    fun hv => by simp [migrateSlot, hv]⟩
  case _ => exact ⟨fun v hv => by simp [migrateSlot, hv],
    fun hv => by simp [migrateSlot, hv]⟩
  case _ => exact ⟨fun v hv => by simp [migrateSlot, hv],
    fun hv => by simp [migrateSlot, hv]⟩
  case _ => exact ⟨fun v hv => by simp [migrateSlot, hv],
    fun hv => by simp [migrateSlot, hv]⟩
  case _ => exact ⟨fun v hv => by simp [migrateSlot, hv],
    fun hv => by simp [migrateSlot, hv]⟩
  case _ => exact ⟨fun v hv => by simp [migrateSlot, hv],
    fun hv => by simp [migrateSlot, hv]⟩
  case _ => exact ⟨fun v hv => by simp [migrateSlot, hv],
    fun hv => by simp [migrateSlot, hv]⟩
  case _ => exact ⟨fun v hv => by simp [migrateSlot, hv],
    fun hv => by simp [migrateSlot, hv]⟩
  case _ =>
    intro h
    simp [migrateConfigWithDefaults, migrateSlot, h]
  case _ =>
    intro hall hpw
    simpa [migrateConfigWithDefaults, List.enum] using
      pairwise_migrate_aux ds 0 hall hpw
  case _ =>
    cases c with
    | mk core dreams =>
      simp [migrateConfigWithDefaults, storedOfConfig, migrateSlot_storedOfSlot,
        List.enum, enumFrom_map_migrate]

/-- Witness for C8 at a concrete partially-populated document. -/
theorem migrateConfig_spec_witness :
    (migrateSlot { emptyStoredSlot with size := some 2 } 0).size = 2 ∧
    (migrateSlot emptyStoredSlot 0).blur = DEFAULT_SLOT_CONFIG.blur ∧
    (migrateConfigWithDefaults ⟨none, none⟩).core.positionIndex = -1 ∧
    migrateConfigWithDefaults (storedOfConfig ⟨DEFAULT_SLOT_CONFIG, []⟩) =
      ⟨DEFAULT_SLOT_CONFIG, []⟩ := by
  have h := migrateConfig_spec { emptyStoredSlot with size := some 2 } 0
    ⟨none, none⟩ [] ⟨DEFAULT_SLOT_CONFIG, []⟩
  exact ⟨h.2.1.1 2 rfl, (migrateConfig_spec emptyStoredSlot 0 ⟨none, none⟩ []
      ⟨DEFAULT_SLOT_CONFIG, []⟩).2.2.2.2.1.2 rfl,
    h.2.2.2.2.2.2.2.2.2.2.2.2.2.1 rfl,
    h.2.2.2.2.2.2.2.2.2.2.2.2.2.2.2⟩

/-! ### canvas-export.ts — scene graph, `hideHudElements`, `restoreHudElements`

A PixiJS container is modelled as a tree node carrying its `zIndex` and
`visible` flags. The JS functions mutate nodes in place and collect
references to the hidden nodes; here the collected references are modelled
as paths (child-index lists, root excluded) into the tree. -/

inductive PNode where
  | mk (zIndex : Int) (visible : Bool) (children : List PNode)

def PNode.zIndex : PNode → Int
  | .mk z _ _ => z

def PNode.visible : PNode → Bool
  | .mk _ v _ => v

def PNode.children : PNode → List PNode
  | .mk _ _ cs => cs

/-- Shift a path one sibling to the right (used to re-index the paths
collected for the tail of a child list). -/
def shiftPath : List ℕ → List ℕ
  | [] => []
  | i :: p => (i + 1) :: p

/-- The loop body of `hideHudElements` (canvas-export.ts lines 15–26) over a
child list: a child with `zIndex >= 1000 && visible` has its `visible` flag
cleared and its path recorded, then the walk recurses into its children
(the source guards the recursion with `children.length > 0`, which is
equivalent to recursing into an empty list). Returns the updated children
and the recorded paths in visit order. -/
def hideHudChildren : List PNode → List PNode × List (List ℕ)
  | [] => ([], [])
  | PNode.mk z v gs :: rest =>
    (PNode.mk z (if decide (1000 ≤ z) && v then false else v)
        (hideHudChildren gs).1 :: (hideHudChildren rest).1,
      (if decide (1000 ≤ z) && v then [[0]] else [])
        ++ (hideHudChildren gs).2.map (fun p => 0 :: p)
        ++ (hideHudChildren rest).2.map shiftPath)

/-- `hideHudElements(container)` from canvas-export.ts lines 12–29: walks the
container's children and returns the updated container together with the
list of hidden nodes (as paths). -/
def hideHudElements (container : PNode) : PNode × List (List ℕ) :=
  (PNode.mk container.zIndex container.visible (hideHudChildren container.children).1,
    (hideHudChildren container.children).2)

mutual
/-- `element.visible = true` for the node addressed by a path ([] is the
node itself). -/
def setVisibleTrue : PNode → List ℕ → PNode
  | PNode.mk z _ cs, [] => PNode.mk z true cs
  | PNode.mk z v cs, i :: p => PNode.mk z v (setVisibleTrueAt cs i p)
termination_by n _ => sizeOf n

/-- Apply `setVisibleTrue` to the `i`-th entry of a child list. -/
def setVisibleTrueAt : List PNode → ℕ → List ℕ → List PNode
  | [], _, _ => []
  | c :: rest, 0, p => setVisibleTrue c p :: rest
  | c :: rest, i + 1, p => c :: setVisibleTrueAt rest i p
termination_by cs _ _ => sizeOf cs
end

/-- `restoreHudElements(elements)` from canvas-export.ts lines 34–38: sets
`visible = true` on every recorded node, in order. -/
def restoreHudElements (elements : List (List ℕ)) (root : PNode) : PNode :=
  elements.foldl setVisibleTrue root

/-- Look up the node addressed by a non-empty path into a child list. -/
def getList? : List PNode → List ℕ → Option PNode
  | _, [] => none
  | cs, i :: p =>
    match cs[i]? with
    | none => none
    | some c =>
      match p with
      | [] => some c
      | _ :: _ => getList? c.children p

@[simp] theorem PNode.zIndex_mk (z : ℤ) (v : Bool) (cs : List PNode) :
    (PNode.mk z v cs).zIndex = z := rfl

@[simp] theorem PNode.visible_mk (z : ℤ) (v : Bool) (cs : List PNode) :
    (PNode.mk z v cs).visible = v := rfl

@[simp] theorem PNode.children_mk (z : ℤ) (v : Bool) (cs : List PNode) :
    (PNode.mk z v cs).children = cs := rfl

theorem setVisibleTrue_nil (z : ℤ) (v : Bool) (cs : List PNode) :
    setVisibleTrue (PNode.mk z v cs) [] = PNode.mk z true cs := by
  simp [setVisibleTrue]

theorem setVisibleTrue_cons (z : ℤ) (v : Bool) (cs : List PNode) (i : ℕ)
    (p : List ℕ) :
    setVisibleTrue (PNode.mk z v cs) (i :: p) =
      PNode.mk z v (setVisibleTrueAt cs i p) := by
  simp [setVisibleTrue]

theorem setVisibleTrueAt_zero (c : PNode) (rest : List PNode) (p : List ℕ) :
    setVisibleTrueAt (c :: rest) 0 p = setVisibleTrue c p :: rest := by
  simp [setVisibleTrueAt]

theorem setVisibleTrueAt_succ (c : PNode) (rest : List PNode) (i : ℕ)
    (p : List ℕ) :
    setVisibleTrueAt (c :: rest) (i + 1) p = c :: setVisibleTrueAt rest i p := by
  simp [setVisibleTrueAt]

/-- Restore a list of recorded paths against a child list. -/
def setListAt (cs : List PNode) : List ℕ → List PNode
  | [] => cs
  | i :: p => setVisibleTrueAt cs i p

def restoreAt (cs : List PNode) (ps : List (List ℕ)) : List PNode :=
  ps.foldl setListAt cs

@[simp] theorem restoreAt_nil (cs : List PNode) : restoreAt cs [] = cs := rfl

theorem restoreAt_cons (cs : List PNode) (p : List ℕ) (ps : List (List ℕ)) :
    restoreAt cs (p :: ps) = restoreAt (setListAt cs p) ps := rfl

theorem restoreAt_append (cs : List PNode) (ps qs : List (List ℕ)) :
    restoreAt cs (ps ++ qs) = restoreAt (restoreAt cs ps) qs := by
  simp [restoreAt, List.foldl_append]

theorem foldl_setVisibleTrue_mk (ps : List (List ℕ)) (z : ℤ) (v : Bool)
    (cs : List PNode) (h : ∀ p ∈ ps, p ≠ []) :
    ps.foldl setVisibleTrue (PNode.mk z v cs) = PNode.mk z v (restoreAt cs ps) := by
  induction ps generalizing cs with
  | nil => rfl
  | cons p ps ih =>
    match p, h p (List.mem_cons_self _ _) with
    | i :: p', _ =>
      simp only [List.foldl_cons, setVisibleTrue_cons, restoreAt_cons, setListAt]
      exact ih _ (fun q hq => h q (List.mem_cons_of_mem _ hq))

theorem restoreAt_map_zero (ps : List (List ℕ)) (c : PNode) (rest : List PNode) :
    restoreAt (c :: rest) (ps.map fun p => 0 :: p) =
      ps.foldl setVisibleTrue c :: rest := by
  induction ps generalizing c with
  | nil => rfl
  | cons p ps ih =>
    simp only [List.map_cons, restoreAt_cons, setListAt, setVisibleTrueAt_zero,
      List.foldl_cons]
    exact ih _

theorem restoreAt_map_shift (ps : List (List ℕ)) (c : PNode)
    (rest : List PNode) (h : ∀ p ∈ ps, p ≠ []) :
    restoreAt (c :: rest) (ps.map shiftPath) = c :: restoreAt rest ps := by
  induction ps generalizing rest with
  | nil => rfl
  | cons p ps ih =>
    match p, h p (List.mem_cons_self _ _) with
    | i :: p', _ =>
      simp only [List.map_cons, shiftPath, restoreAt_cons, setListAt,
        setVisibleTrueAt_succ]
      exact ih _ (fun q hq => h q (List.mem_cons_of_mem _ hq))

theorem shiftPath_ne_nil {p : List ℕ} (h : p ≠ []) : shiftPath p ≠ [] := by
  cases p with
  | nil => exact absurd rfl h
  | cons i q => simp [shiftPath]

theorem hideHudChildren_paths_ne_nil (l : List PNode) :
    ∀ p ∈ (hideHudChildren l).2, p ≠ [] := by
  induction l using hideHudChildren.induct with
  | case1 => intro p hp; simp [hideHudChildren] at hp
  | case2 z v gs rest ihg ihr =>
    intro p hp
    simp only [hideHudChildren] at hp
    rcases List.mem_append.mp hp with hp | hp
    · rcases List.mem_append.mp hp with hp | hp
      · by_cases hc : (decide (1000 ≤ z) && v) = true
        · rw [if_pos hc] at hp
          simp only [List.mem_singleton] at hp
          subst hp; simp
        · rw [if_neg hc] at hp
          simp at hp
      · obtain ⟨q, _, rfl⟩ := List.mem_map.mp hp
        simp
    · obtain ⟨q, hq, rfl⟩ := List.mem_map.mp hp
      exact shiftPath_ne_nil (ihr q hq)

theorem getList?_nil (p : List ℕ) : getList? [] p = none := by
  cases p <;> simp [getList?]

theorem getList?_cons_zero_nil (c : PNode) (rest : List PNode) :
    getList? (c :: rest) [0] = some c := by
  simp [getList?]

theorem getList?_cons_zero_cons (c : PNode) (rest : List PNode) (q : ℕ)
    (p : List ℕ) :
    getList? (c :: rest) (0 :: q :: p) = getList? c.children (q :: p) := by
  simp [getList?]

theorem getList?_cons_succ (c : PNode) (rest : List PNode) (j : ℕ)
    (p : List ℕ) :
    getList? (c :: rest) ((j + 1) :: p) = getList? rest (j :: p) := by
  cases h : rest[j]? with
  | none => cases p <;> simp [getList?, h]
  | some d => cases p <;> simp [getList?, h]

theorem restoreAt_hideHudChildren (l : List PNode) :
    restoreAt (hideHudChildren l).1 (hideHudChildren l).2 = l := by
  induction l using hideHudChildren.induct with
  | case1 => simp [hideHudChildren]
  | case2 z v gs rest ihg ihr =>
    simp only [hideHudChildren]
    rw [restoreAt_append, restoreAt_append]
    have h1 : restoreAt
        (PNode.mk z (if decide (1000 ≤ z) && v then false else v)
            (hideHudChildren gs).1 :: (hideHudChildren rest).1)
        (if decide (1000 ≤ z) && v then [[0]] else []) =
        PNode.mk z v (hideHudChildren gs).1 :: (hideHudChildren rest).1 := by
      by_cases hc : (decide (1000 ≤ z) && v) = true
      · rw [Bool.and_eq_true] at hc
        rw [if_pos (by simp [hc.1, hc.2]), if_pos (by simp [hc.1, hc.2]),
          restoreAt_cons, restoreAt_nil]
        simp [setListAt, setVisibleTrueAt_zero, setVisibleTrue_nil, hc.2]
      · rw [if_neg hc, if_neg hc, restoreAt_nil]
    rw [h1, restoreAt_map_zero,
      foldl_setVisibleTrue_mk _ _ _ _ (hideHudChildren_paths_ne_nil gs), ihg,
      restoreAt_map_shift _ _ _ (hideHudChildren_paths_ne_nil rest), ihr]

theorem hideHudChildren_mem_iff (l : List PNode) :
    ∀ p, p ∈ (hideHudChildren l).2 ↔
      ∃ n, getList? l p = some n ∧ n.visible = true ∧ 1000 ≤ n.zIndex := by
  induction l using hideHudChildren.induct with
  | case1 =>
    intro p
    simp [hideHudChildren, getList?_nil]
  | case2 z v gs rest ihg ihr =>
    intro p
    simp only [hideHudChildren]
    match p with
    | [] =>
      constructor
      · intro hp
        exact absurd rfl
          (hideHudChildren_paths_ne_nil (PNode.mk z v gs :: rest) [] (by
            simpa [hideHudChildren] using hp))
      · rintro ⟨n, hn, -, -⟩
        simp [getList?] at hn
    | [0] =>
      rw [getList?_cons_zero_nil]
      constructor
      · intro hp
        rcases List.mem_append.mp hp with hp | hp
        · rcases List.mem_append.mp hp with hp | hp
          · by_cases hc : (decide (1000 ≤ z) && v) = true
            · rw [Bool.and_eq_true] at hc
              exact ⟨PNode.mk z v gs, rfl, by simp [hc.2],
                of_decide_eq_true hc.1⟩
            · rw [if_neg hc] at hp
              simp at hp
          · obtain ⟨q, hq, hqe⟩ := List.mem_map.mp hp
            cases hqe
            exact absurd rfl (hideHudChildren_paths_ne_nil gs [] (by
              simpa using hq))
        · obtain ⟨q, hq, hqe⟩ := List.mem_map.mp hp
          cases q with
          | nil => simp [shiftPath] at hqe
          | cons i p'' => simp [shiftPath] at hqe
      · rintro ⟨n, hn, hv, hz⟩
        injection hn with hn
        subst hn
        simp only [PNode.visible_mk] at hv
        simp only [PNode.zIndex_mk] at hz
        have hc : (decide (1000 ≤ z) && v) = true := by
          simp [hv, hz]
        rw [if_pos hc]
        simp
    | 0 :: q :: p' =>
      rw [getList?_cons_zero_cons, PNode.children_mk]
      rw [← ihg (q :: p')]
      constructor
      · intro hp
        rcases List.mem_append.mp hp with hp | hp
        · rcases List.mem_append.mp hp with hp | hp
          · by_cases hc : (decide (1000 ≤ z) && v) = true
            · rw [if_pos hc] at hp
              simp at hp
            · rw [if_neg hc] at hp
              simp at hp
          · obtain ⟨r, hr, hre⟩ := List.mem_map.mp hp
            injection hre with _ hre
            subst hre
            exact hr
        · obtain ⟨r, hr, hre⟩ := List.mem_map.mp hp
          cases r with
          | nil => simp [shiftPath] at hre
          | cons i p'' => simp [shiftPath] at hre
      · intro hq
        exact List.mem_append.mpr (.inl (List.mem_append.mpr (.inr
          (List.mem_map.mpr ⟨q :: p', hq, rfl⟩))))
    | (j + 1) :: p' =>
      rw [getList?_cons_succ]
      rw [← ihr (j :: p')]
      constructor
      · intro hp
        rcases List.mem_append.mp hp with hp | hp
        · rcases List.mem_append.mp hp with hp | hp
          · by_cases hc : (decide (1000 ≤ z) && v) = true
            · rw [if_pos hc] at hp
              simp at hp
            · rw [if_neg hc] at hp
              simp at hp
          · obtain ⟨r, hr, hre⟩ := List.mem_map.mp hp
            injection hre with h1 h2
            exact (Nat.succ_ne_zero j h1.symm).elim
        · obtain ⟨r, hr, hre⟩ := List.mem_map.mp hp
          cases r with
          | nil => simp [shiftPath] at hre
          | cons i p'' =>
            simp only [shiftPath] at hre
            injection hre with h1 h2
            have hij : i = j := by omega
            subst hij; subst h2
            exact hr
      · intro hq
        exact List.mem_append.mpr (.inr
          (List.mem_map.mpr ⟨j :: p', hq, by simp [shiftPath]⟩))

theorem hideHudChildren_invisible (l : List PNode) :
    ∀ p n, getList? (hideHudChildren l).1 p = some n →
      1000 ≤ n.zIndex → n.visible = false := by
  induction l using hideHudChildren.induct with
  | case1 =>
    intro p n h
    have he : (hideHudChildren ([] : List PNode)).1 = [] := by
      simp [hideHudChildren]
    rw [he, getList?_nil] at h
    exact absurd h (by simp)
  | case2 z v gs rest ihg ihr =>
    intro p n h hz
    simp only [hideHudChildren] at h
    match p with
    | [] => simp [getList?] at h
    | [0] =>
      rw [getList?_cons_zero_nil] at h
      injection h with h
      subst h
      simp only [PNode.zIndex_mk] at hz
      simp only [PNode.visible_mk]
      cases v <;> simp [hz]
    | 0 :: q :: p' =>
      rw [getList?_cons_zero_cons, PNode.children_mk] at h
      exact ihg (q :: p') n h hz
    | (j + 1) :: p' =>
      rw [getList?_cons_succ] at h
      exact ihr (j :: p') n h hz

/-! ### Claim C3 -/

/-- C3: `hideHudElements` records exactly the (strict-descendant) nodes that
are visible with `zIndex ≥ 1000`; after hiding, every such node's `visible`
flag is `false`; and `restoreHudElements` applied to the recorded list
restores the scene graph exactly (hide-then-restore is the identity). -/
theorem hideHudElements_spec (t : PNode) :
    (∀ p, p ∈ (hideHudElements t).2 ↔
      ∃ n, getList? t.children p = some n ∧ n.visible = true ∧ 1000 ≤ n.zIndex) ∧
    (∀ p n, getList? (hideHudElements t).1.children p = some n →
      1000 ≤ n.zIndex → n.visible = false) ∧
    restoreHudElements (hideHudElements t).2 (hideHudElements t).1 = t := by
  obtain ⟨z, v, cs⟩ := t
  refine ⟨fun p => hideHudChildren_mem_iff cs p,
    fun p n h => hideHudChildren_invisible cs p n h, ?_⟩
  show (hideHudChildren cs).2.foldl setVisibleTrue
      (PNode.mk z v (hideHudChildren cs).1) = PNode.mk z v cs
  rw [foldl_setVisibleTrue_mk _ _ _ _ (hideHudChildren_paths_ne_nil cs),
    restoreAt_hideHudChildren]

/-- A concrete scene graph: a stage with a visible ring (zIndex 1000), and a
slot container holding an already-hidden ring and a visible ring. -/
def hudTreeExample : PNode :=
  PNode.mk 0 true
    [PNode.mk 1000 true [],
     PNode.mk 5 true [PNode.mk 1200 false [], PNode.mk 1500 true []]]

/-- Witness for C3 on `hudTreeExample`. -/
theorem hideHudElements_spec_witness :
    (PNode.mk 1000 false []).visible = false ∧
    [0] ∈ (hideHudElements hudTreeExample).2 ∧
    restoreHudElements (hideHudElements hudTreeExample).2
      (hideHudElements hudTreeExample).1 = hudTreeExample := by
  have heval : hideHudElements hudTreeExample =
      (PNode.mk 0 true
        [PNode.mk 1000 false [],
         PNode.mk 5 true [PNode.mk 1200 false [], PNode.mk 1500 false []]],
       [[0], [1, 1]]) := by
    simp [hudTreeExample, hideHudElements, hideHudChildren, shiftPath]
  refine ⟨(hideHudElements_spec hudTreeExample).2.1 [0] (PNode.mk 1000 false [])
      ?_ (by norm_num),
    ((hideHudElements_spec hudTreeExample).1 [0]).mpr
      ⟨PNode.mk 1000 true [], rfl, rfl, by norm_num⟩,
    (hideHudElements_spec hudTreeExample).2.2⟩
  rw [heval]
  rfl

/-! ### canvas-export.ts — `exportCanvasAsImage`

The export entry point is modelled as a function of the nullable application
handle and an environment saying whether the offscreen render throws and
whether `canvas.toBlob` delivers a blob. The model follows the source's
control flow (lines 48–126):
* a null `app` logs an error and returns — the promise resolves, nothing else
  happens;
* otherwise the HUD walk, the save of the stage transform, the scaling to the
  export resolution and the render happen inside `try`; if the render throws,
  the `catch` logs and rethrows — the promise rejects and neither the
  transform restore nor `restoreHudElements` has run;
* if the render returns, transform and HUD are restored, and `canvas.toBlob`
  is invoked: its callback initiates the download exactly when a blob was
  produced (a null blob only logs), while the `async` function itself has
  already resolved. -/

structure Stage where
  scaleX : ℚ
  scaleY : ℚ
  posX : ℚ
  posY : ℚ
  root : PNode

structure ExportEnv where
  renderThrows : Bool
  blobOk : Bool

structure ExportResult where
  rejected : Bool
  downloadInitiated : Bool
  finalStage : Option Stage

def EXPORT_WIDTH : ℚ := 5400

def EXPORT_HEIGHT : ℚ := 7200

def exportCanvasAsImage (app : Option Stage) (env : ExportEnv) : ExportResult :=
  match app with
  | none => { rejected := false, downloadInitiated := false, finalStage := none }
  | some st =>
    let hidden := hideHudElements st.root
    let stScaled : Stage :=
      { scaleX := EXPORT_WIDTH / POSTER_WIDTH,
        scaleY := EXPORT_HEIGHT / POSTER_HEIGHT,
        posX := 0, posY := 0, root := hidden.1 }
    if env.renderThrows then
      { rejected := true, downloadInitiated := false, finalStage := some stScaled }
    else
      let stRestored : Stage :=
        { scaleX := st.scaleX, scaleY := st.scaleY, posX := st.posX,
          posY := st.posY, root := restoreHudElements hidden.2 hidden.1 }
      { rejected := false, downloadInitiated := env.blobOk,
        finalStage := some stRestored }

/-! ### Claim C1 -/

/-- C1 counterexample: with a null application handle the promise resolves
(`console.error` + early `return`), it does not reject; and with a failed
blob conversion the promise has also resolved and no download is initiated —
contradicting the claim that the promise rejects in these failure cases. -/
theorem exportCanvasAsImage_no_reject :
    ((exportCanvasAsImage none ⟨false, true⟩).rejected = false ∧
      (exportCanvasAsImage none ⟨false, true⟩).downloadInitiated = false) ∧
    ((exportCanvasAsImage (some ⟨1, 1, 0, 0, PNode.mk 0 true []⟩)
        ⟨false, false⟩).rejected = false ∧
      (exportCanvasAsImage (some ⟨1, 1, 0, 0, PNode.mk 0 true []⟩)
        ⟨false, false⟩).downloadInitiated = false) := by
  refine ⟨⟨rfl, rfl⟩, ?_, ?_⟩ <;> simp [exportCanvasAsImage]

/-- C1 (amended): the promise rejects only when the application is non-null
and the offscreen render throws; a null handle or a failed blob conversion
makes the export log an error and resolve without initiating a download; a
download is initiated exactly when the handle is non-null, the render
succeeds, and a blob is produced. -/
theorem exportCanvasAsImage_outcomes (app : Option Stage) (env : ExportEnv) :
    ((exportCanvasAsImage app env).downloadInitiated = true ↔
      app.isSome = true ∧ env.renderThrows = false ∧ env.blobOk = true) ∧
    ((exportCanvasAsImage app env).rejected = true ↔
      app.isSome = true ∧ env.renderThrows = true) ∧
    (app = none → (exportCanvasAsImage app env).rejected = false ∧
      (exportCanvasAsImage app env).downloadInitiated = false) ∧
    (env.blobOk = false → (exportCanvasAsImage app env).downloadInitiated = false) := by
  obtain ⟨rt, bo⟩ := env
  cases app with
  | none => cases rt <;> cases bo <;> simp [exportCanvasAsImage]
  | some st => cases rt <;> cases bo <;> simp [exportCanvasAsImage]

/-- Witness for C1's amended statement. -/
theorem exportCanvasAsImage_outcomes_witness :
    (exportCanvasAsImage none ⟨false, false⟩).rejected = false ∧
    (exportCanvasAsImage none ⟨false, false⟩).downloadInitiated = false :=
  ⟨((exportCanvasAsImage_outcomes none ⟨false, false⟩).2.2.1 rfl).1,
    (exportCanvasAsImage_outcomes none ⟨false, false⟩).2.2.2 rfl⟩

/-! ### Claim C2 -/

/-- A stage with a non-default transform and one visible selection ring. -/
def exportStageExample : Stage :=
  ⟨1, 1, 10, 20, PNode.mk 0 true [PNode.mk 1000 true []]⟩

/-- C2 evaluation at the failing input: the restore of the stage transform
and of the hidden HUD nodes is not in a `finally` block, so when the
offscreen render throws, `exportCanvasAsImage` leaves the live stage scaled
to the export resolution (scale 3, position origin) with the selection ring
still hidden, contrary to the claim that the pre-export state is restored
whether the render succeeds or throws. -/
theorem exportCanvasAsImage_throw_corrupts :
    (exportCanvasAsImage (some exportStageExample) ⟨true, true⟩).rejected = true ∧
    ∃ st, (exportCanvasAsImage (some exportStageExample) ⟨true, true⟩).finalStage
        = some st ∧
      st.scaleX = 3 ∧ st.scaleY = 3 ∧ st.posX = 0 ∧ st.posY = 0 ∧
      getList? st.root.children [0] = some (PNode.mk 1000 false []) ∧
      exportStageExample.scaleX = 1 ∧ exportStageExample.posX = 10 ∧
      getList? exportStageExample.root.children [0] =
        some (PNode.mk 1000 true []) := by
  have heval : hideHudElements exportStageExample.root =
      (PNode.mk 0 true [PNode.mk 1000 false []], [[0]]) := by
    simp [exportStageExample, hideHudElements, hideHudChildren, shiftPath]
  refine ⟨rfl, ?_⟩
  refine ⟨_, rfl, ?_, ?_, rfl, rfl, ?_, rfl, rfl, rfl⟩
  · show EXPORT_WIDTH / POSTER_WIDTH = 3
    norm_num [EXPORT_WIDTH, POSTER_WIDTH]
  · show EXPORT_HEIGHT / POSTER_HEIGHT = 3
    norm_num [EXPORT_HEIGHT, POSTER_HEIGHT]
  · show getList? (hideHudElements exportStageExample.root).1.children [0] =
      some (PNode.mk 1000 false [])
    rw [heval]
    rfl

end VisionBoard
